import Mathlib

/-! linux-do/credit: monetary validators and the transaction listing

A shallow embedding of

* `internal/util/validate.go`: `ValidateRates`, `ValidateAmount`;
* `internal/apps/order/routers.go`: `Transactions`.

The decimal type is `github.com/shopspring/decimal`: a pair of an arbitrary
precision coefficient `value` and an `int32` exponent `exp`, standing for
`value * 10 ^ exp`.  Only the operations the validators call are embedded
(`Cmp`, `LessThan`, `GreaterThan`, `LessThanOrEqual`, `Exponent`, `Zero`,
`NewFromInt`), written after the library: `Cmp` brings both operands to the
smaller of the two exponents and compares the coefficients.
-/

namespace Credit

/-! ## The decimal type -/

/-- A decimal number `value * 10 ^ exp` (`decimal.Decimal`).  The library's exponent is an
`int32`; here it ranges over all integers, which contains every `int32`. -/
structure Decimal where
  value : Int
  exp : Int
  deriving DecidableEq, Repr

namespace Decimal

/-- The constant `decimal.Zero`, which the library declares as `New(0, 1)`. -/
def Zero : Decimal := ⟨0, 1⟩

/-- The constructor `decimal.NewFromInt(v)`: coefficient `v`, exponent `0`. -/
def NewFromInt (v : Int) : Decimal := ⟨v, 0⟩

/-- The accessor `d.Exponent()`: the exponent of the representation. -/
def Exponent (d : Decimal) : Int := d.exp

/-- The method `d.rescale(exp)`: the same number at another exponent; going to a larger
exponent truncates (`big.Int.Quo`), going to a smaller one multiplies and is exact. -/
def rescale (d : Decimal) (exp : Int) : Decimal :=
  if d.exp = exp then d
  else if d.exp < exp then ⟨d.value.tdiv (10 ^ (exp - d.exp).natAbs), exp⟩
  else ⟨d.value * 10 ^ (exp - d.exp).natAbs, exp⟩

/-- The function `RescalePair(d1, d2)`: both operands at the smaller exponent. -/
def RescalePair (d1 d2 : Decimal) : Decimal × Decimal :=
  if d1.exp < d2.exp then (d1, d2.rescale d1.exp)
  else if d1.exp > d2.exp then (d1.rescale d2.exp, d2)
  else (d1, d2)

/-- The comparison `big.Int.Cmp`: `-1`, `0` or `1`. -/
def bigCmp (a b : Int) : Int :=
  if a < b then -1 else if a = b then 0 else 1

/-- The method `d.Cmp(d2)`. -/
def Cmp (d d2 : Decimal) : Int :=
  if d.exp = d2.exp then bigCmp d.value d2.value
  else bigCmp (RescalePair d d2).1.value (RescalePair d d2).2.value

/-- The method `d.LessThan(d2)`. -/
def LessThan (d d2 : Decimal) : Bool := d.Cmp d2 == -1

/-- The method `d.GreaterThan(d2)`. -/
def GreaterThan (d d2 : Decimal) : Bool := d.Cmp d2 == 1

/-- The method `d.LessThanOrEqual(d2)`. -/
def LessThanOrEqual (d d2 : Decimal) : Bool :=
  let cmp := d.Cmp d2
  cmp == -1 || cmp == 0

/-- The number a decimal stands for: `value * 10 ^ exp`. -/
def toRat (d : Decimal) : ℚ := (d.value : ℚ) * (10 : ℚ) ^ d.exp

/-- The value of `d` can be written with `n` digits after the decimal point: `d * 10 ^ n` is
an integer. -/
def fitsPlaces (d : Decimal) (n : Nat) : Prop := (d.toRat * (10 : ℚ) ^ n).den = 1

instance (d : Decimal) : DecidablePred d.fitsPlaces := fun n =>
  inferInstanceAs (Decidable ((d.toRat * (10 : ℚ) ^ n).den = 1))

/-- The least number of digits at most `k` that the value of `d` fits, for a value that
fits `k` digits. -/
def scaleFrom (d : Decimal) : Nat → Nat
  | 0 => 0
  | k + 1 => if d.fitsPlaces k then scaleFrom d k else k + 1

/-- The scale of `d`: the minimal number of digits after the decimal point needed to write
its value.  The digits of the representation always suffice, so the search starts there. -/
def scale (d : Decimal) : Nat := scaleFrom d (-d.exp).toNat

end Decimal

/-! ## `internal/util/validate.go` -/

/-- Modelled from the spec: the message constants of package `common`
(`common.RateMustBeBetweenZeroAndOne`, `common.RateDecimalPlacesExceeded`,
`common.AmountMustBeGreaterThanZero`, `common.AmountDecimalPlacesExceeded`), whose
declarations are not among the sources; the spec's taxonomy lists them as four distinct
validation errors (`RateOutOfRange` is its name for the first). -/
inductive ValidationError
  | RateMustBeBetweenZeroAndOne
  | RateDecimalPlacesExceeded
  | AmountMustBeGreaterThanZero
  | AmountDecimalPlacesExceeded
  deriving DecidableEq, Repr

/-- The function `ValidateRates(rates ...decimal.Decimal) error`; `none` is the `nil` error.
The loop over `rates` returns at the first rate that fails a check. -/
def ValidateRates : List Decimal → Option ValidationError
  | [] => none
  | rate :: rates =>
    if rate.LessThan Decimal.Zero || rate.GreaterThan (Decimal.NewFromInt 1) then
      some .RateMustBeBetweenZeroAndOne
    else if rate.Exponent < -2 then
      some .RateDecimalPlacesExceeded
    else ValidateRates rates

/-- The function `ValidateAmount(amount decimal.Decimal) error`; `none` is the `nil` error. -/
def ValidateAmount (amount : Decimal) : Option ValidationError :=
  if amount.LessThanOrEqual Decimal.Zero then some .AmountMustBeGreaterThanZero
  else if amount.Exponent < -2 then some .AmountDecimalPlacesExceeded
  else none

/-! ## `internal/apps/order/routers.go` -/

/-- The struct `TransactionListRequest`, as decoded from the request body. `Page` and
`PageSize` are Go `int`s. -/
structure TransactionListRequest where
  Page : Int
  PageSize : Int
  Type_ : String
  Status : String
  StartTime : String
  EndTime : String
  deriving DecidableEq, Repr

/-- Modelled from the spec: the struct `model.Order`, whose declaration is not among the
sources; the columns are the ones the listing reads (`type`, `status`, `payer_username`,
`payee_username`, `trade_time`) and an identity. `TradeTime` is an instant on a linear time
axis. -/
structure Order where
  ID : Nat
  Type_ : String
  Status : String
  PayerUsername : String
  PayeeUsername : String
  TradeTime : Int
  deriving DecidableEq, Repr

/-- The struct `TransactionListResponse`. -/
structure TransactionListResponse where
  Total : Int
  Page : Int
  Size : Int
  Data : List Order
  deriving DecidableEq, Repr

/-- What the handler writes with `c.JSON`: the status code and the body. -/
inductive Response
  | OK (body : TransactionListResponse)
  | BadRequest (msg : String)
  | Unauthorized (msg : String)
  | InternalServerError (msg : String)
  deriving DecidableEq, Repr

/-- A Go `int` on a 64-bit platform: the two's complement value of a mathematical integer. -/
def wrapInt (x : Int) : Int := (x + 2 ^ 63) % 2 ^ 64 - 2 ^ 63

/-- The `binding` tags of `TransactionListRequest`, checked by `c.ShouldBindJSON`:
`omitempty` skips a zero or empty field, `min`/`max` bound a number, `oneof` lists the
admissible strings.  `none` when the request passes, else the failing field. -/
def ShouldBindJSON (req : TransactionListRequest) : Option String :=
  if req.Page ≠ 0 ∧ req.Page < 1 then some "Page"
  else if req.PageSize ≠ 0 ∧ (req.PageSize < 1 ∨ 100 < req.PageSize) then some "PageSize"
  else if req.Type_ ≠ "" ∧ req.Type_ ∉ ["receive", "payment", "transfer", "community"] then
    some "Type"
  else if req.Status ≠ "" ∧
      req.Status ∉ ["success", "pending", "failed", "disputing", "refunded"] then
    some "Status"
  else none

/-- The defaults of `Transactions` (the three `if` statements on `req.Page` and
`req.PageSize`), executed in the order of the source. -/
def applyDefaults (req : TransactionListRequest) : TransactionListRequest :=
  let req := if req.Page ≤ 0 then { req with Page := 1 } else req
  let req := if req.PageSize ≤ 0 then { req with PageSize := 20 } else req
  let req := if req.PageSize > 100 then { req with PageSize := 100 } else req
  req

/-- One `Where` condition of the listing query. -/
inductive Cond
  /-- The condition `payer_username = ? OR payee_username = ?`. -/
  | party (username : String)
  /-- The condition `type = ?`. -/
  | typeEq (t : String)
  /-- The condition `status = ?`. -/
  | statusEq (s : String)
  /-- The condition `trade_time >= ?`. -/
  | tradeTimeGe (t : Int)
  /-- The condition `trade_time <= ?`. -/
  | tradeTimeLe (t : Int)
  deriving DecidableEq, Repr

/-- Whether a row satisfies a condition. -/
def Cond.holds : Cond → Order → Bool
  | .party u, o => o.PayerUsername == u || o.PayeeUsername == u
  | .typeEq t, o => o.Type_ == t
  | .statusEq s, o => o.Status == s
  | .tradeTimeGe t, o => decide (t ≤ o.TradeTime)
  | .tradeTimeLe t, o => decide (o.TradeTime ≤ t)

/-- The query being built (`*gorm.DB` on `model.Order`): the conditions added so far, which
the store joins with `AND`. -/
structure Query where
  conds : List Cond
  deriving DecidableEq, Repr

/-- The empty query `db.DB(ctx).Model(&model.Order{})`. -/
def Query.Model : Query := ⟨[]⟩

/-- The method `query.Where(...)`: one more condition. -/
def Query.Where (q : Query) (c : Cond) : Query := ⟨q.conds ++ [c]⟩

/-- Whether a row satisfies every condition of the query. -/
def Query.matches (q : Query) (o : Order) : Bool := q.conds.all (fun c => c.holds o)

/-- The order store: its rows, and the failure (if any) the database reports on a count and
on a fetch. -/
structure Store where
  rows : List Order
  countErr : Option String
  findErr : Option String
  deriving DecidableEq, Repr

/-- A read of the store. -/
inductive StoreRead
  | count
  | find
  deriving DecidableEq, Repr

/-- Insertion of a row into a list sorted by `trade_time` descending, before the first row
that is not more recent. -/
def insertDesc (o : Order) : List Order → List Order
  | [] => [o]
  | x :: xs => if x.TradeTime ≤ o.TradeTime then o :: x :: xs else x :: insertDesc o xs

/-- The clause `ORDER BY trade_time DESC`.  The database leaves the order of rows with equal
`trade_time` open; here they keep the order of the store. -/
def orderByTradeTimeDesc : List Order → List Order
  | [] => []
  | o :: os => insertDesc o (orderByTradeTimeDesc os)

/-- The read `query.Count(&total)`: the number of rows satisfying the query. -/
def Store.Count (s : Store) (q : Query) : Except String Int :=
  match s.countErr with
  | some e => .error e
  | none => .ok ((s.rows.filter q.matches).length : Int)

/-- The read `query.Order("trade_time DESC").Offset(offset).Limit(limit).Find(&orders)`.
The query builder writes the `OFFSET` clause only for a positive offset and the `LIMIT`
clause only for a non-negative limit. -/
def Store.Find (s : Store) (q : Query) (offset limit : Int) : Except String (List Order) :=
  match s.findErr with
  | some e => .error e
  | none =>
    let sorted := orderByTradeTimeDesc (s.rows.filter q.matches)
    let skipped := if 0 < offset then sorted.drop offset.toNat else sorted
    .ok (if 0 ≤ limit then skipped.take limit.toNat else skipped)

/-- The result of one call of the handler: the response written and the store reads made,
in order. -/
structure Outcome where
  response : Response
  reads : List StoreRead
  deriving DecidableEq, Repr

/-- The type and status conditions of `Transactions`, added to the base query of `username`;
the status `refunded` is stored as `refund`. -/
def filterQuery (username : String) (req : TransactionListRequest) : Query :=
  let query := Query.Model
  let query := query.Where (.party username)
  let query := if req.Type_ ≠ "" then query.Where (.typeEq req.Type_) else query
  let query :=
    if req.Status ≠ "" then
      let status := req.Status
      let status := if status = "refunded" then "refund" else status
      query.Where (.statusEq status)
    else query
  query

/-- The handler `Transactions`.  `parseTime s` stands for
`time.Parse("2006-01-02 15:04:05", s)` (`none` when it returns an error), `user` for the
result of `oauth.GetUserFromContext` (`none` when not logged in), `req` for the decoded
request body. -/
def Transactions (parseTime : String → Option Int) (user : Option String) (store : Store)
    (req : TransactionListRequest) : Outcome :=
  match ShouldBindJSON req with
  | some e => ⟨.BadRequest e, []⟩
  | none =>
    let req := applyDefaults req
    match user with
    | none => ⟨.Unauthorized "未登录", []⟩
    | some username =>
      let query := filterQuery username req
      let start : Option Query :=
        if req.StartTime ≠ "" then
          (parseTime req.StartTime).map (fun startTime => query.Where (.tradeTimeGe startTime))
        else some query
      match start with
      | none => ⟨.BadRequest "开始时间格式错误，格式应为：YYYY-MM-DD HH:mm:ss", []⟩
      | some query =>
        let stop : Option Query :=
          if req.EndTime ≠ "" then
            (parseTime req.EndTime).map (fun endTime => query.Where (.tradeTimeLe endTime))
          else some query
        match stop with
        | none => ⟨.BadRequest "结束时间格式错误，格式应为：YYYY-MM-DD HH:mm:ss", []⟩
        | some query =>
          match store.Count query with
          | .error e => ⟨.InternalServerError e, [.count]⟩
          | .ok total =>
            let offset := wrapInt ((req.Page - 1) * req.PageSize)
            match store.Find query offset req.PageSize with
            | .error e => ⟨.InternalServerError e, [.count, .find]⟩
            | .ok orders =>
              ⟨.OK { Total := total, Page := req.Page, Size := req.PageSize, Data := orders },
                [.count, .find]⟩

/-! ### Reference definitions, after the specification -/

/-- The specification's normalized page: `1` if `page ≤ 0`, else `page`. -/
def specPage (page : Int) : Int := if page ≤ 0 then 1 else page

/-- The specification's normalized page size: `20` if `pageSize ≤ 0`, `100` if
`pageSize > 100`, else `pageSize`. -/
def specPageSize (pageSize : Int) : Int :=
  if pageSize ≤ 0 then 20 else if pageSize > 100 then 100 else pageSize

/-! ### The query, the offset and the page of a call -/

/-- A time bound of the request: none for an empty string, else the instant `time.Parse`
returns. -/
def timeBound (parseTime : String → Option Int) (s : String) : Option Int :=
  if s ≠ "" then parseTime s else none

/-- The query `Transactions` has built when it reaches the count: the conditions on the
caller, the type and the status, then the time bounds that are present, in source order. -/
def listingQuery (username : String) (req : TransactionListRequest)
    (startTime endTime : Option Int) : Query :=
  let query := filterQuery username req
  let query :=
    match startTime with
    | some t => query.Where (.tradeTimeGe t)
    | none => query
  let query :=
    match endTime with
    | some t => query.Where (.tradeTimeLe t)
    | none => query
  query

/-- The statement `offset := (req.Page - 1) * req.PageSize` of `Transactions`, on the
request after the defaults: a product of Go `int`s. -/
def listingOffset (req : TransactionListRequest) : Int :=
  let req := applyDefaults req
  wrapInt ((req.Page - 1) * req.PageSize)

/-- The status table of the specification: the external token `refunded` is the internal
`refund`. -/
def specStatusTable : List (String × String) := [("refunded", "refund")]

/-- The specification's status mapping `m`: a token of the table maps to its entry, every
other token to itself. -/
def specStatus (s : String) : String := (specStatusTable.lookup s).getD s

/-- The recognized external status tokens. -/
def statusTokens : List String := ["success", "pending", "failed", "disputing", "refunded"]

/-- The specification's composed predicate: the caller is payer or payee, and each filter
that is present holds; both time bounds are inclusive. -/
def specMatches (U type status : String) (startTime endTime : Option Int) (o : Order) : Bool :=
  decide (o.PayerUsername = U ∨ o.PayeeUsername = U) &&
  decide (type = "" ∨ o.Type_ = type) &&
  decide (status = "" ∨ o.Status = specStatus status) &&
  decide (∀ t, startTime = some t → t ≤ o.TradeTime) &&
  decide (∀ t, endTime = some t → o.TradeTime ≤ t)

/-- The Orders of the store that satisfy the specification's composed predicate for the
caller `U` and the filters of the request, in the order of the store. -/
def matchingRows (parseTime : String → Option Int) (U : String) (store : Store)
    (req : TransactionListRequest) : List Order :=
  store.rows.filter
    (specMatches U req.Type_ req.Status (timeBound parseTime req.StartTime)
      (timeBound parseTime req.EndTime))

/-- A request error of the specification: the answers `400` and `401`. -/
def Response.isRequestError : Response → Bool
  | .BadRequest _ => true
  | .Unauthorized _ => true
  | _ => false

/-! ### Sample data -/

/-- A stand-in for `time.Parse` on two well-formed instants of January 2025 (seconds since
the start of the month); every other string is rejected. -/
def sampleParseTime (s : String) : Option Int :=
  if s = "2025-01-01 00:00:00" then some 0
  else if s = "2025-01-31 23:59:59" then some 2678399
  else none

/-- A store of five rows: three refunded payments involving `alice`, one of her successful
transfers, and a refunded payment between two other users. -/
def sampleStore : Store :=
  { rows :=
      [⟨1, "payment", "refund", "alice", "bob", 86400⟩,
       ⟨2, "payment", "refund", "carol", "alice", 172800⟩,
       ⟨3, "payment", "refund", "carol", "bob", 129600⟩,
       ⟨4, "transfer", "success", "alice", "bob", 43200⟩,
       ⟨5, "payment", "refund", "bob", "alice", 3000000⟩]
    countErr := none
    findErr := none }

/-- A request for the refunded payments of January 2025, first page. -/
def sampleRequest : TransactionListRequest :=
  { Page := 0, PageSize := 0, Type_ := "payment", Status := "refunded",
    StartTime := "2025-01-01 00:00:00", EndTime := "2025-01-31 23:59:59" }

/-- A request for page `2 ^ 62 + 1` at page size `100`, without filters: it passes the
binding, which puts no upper bound on `page`. -/
def farPageRequest : TransactionListRequest :=
  { Page := 4611686018427387905, PageSize := 100, Type_ := "", Status := "",
    StartTime := "", EndTime := "" }

/-- A request for the last page a Go `int` can name, `2 ^ 63 - 1`, at page size `100`. -/
def lastPageRequest : TransactionListRequest :=
  { Page := 9223372036854775807, PageSize := 100, Type_ := "", Status := "",
    StartTime := "", EndTime := "" }

/-- The store of the specification's scenario: 25 refunded payments involving `alice`, one
on each of 25 days of January 2025 and stored out of order, then 5 refunded payments between
`bob` and `carol`. -/
def scenarioStore : Store :=
  { rows :=
      (List.range 25).map (fun i =>
        { ID := i + 1, Type_ := "payment", Status := "refund",
          PayerUsername := if i % 2 = 0 then "alice" else "carol",
          PayeeUsername := if i % 2 = 0 then "bob" else "alice",
          TradeTime := ((i * 7 % 25 : Nat) : Int) * 86400 + 3600 }) ++
      (List.range 5).map (fun i =>
        { ID := i + 26, Type_ := "payment", Status := "refund",
          PayerUsername := "bob", PayeeUsername := "carol",
          TradeTime := (i : Int) * 500000 + 7200 })
    countErr := none
    findErr := none }

/-- The request of the specification's scenario: refunded payments of January 2025, page 2
at page size 10. -/
def scenarioRequest : TransactionListRequest :=
  { Page := 2, PageSize := 10, Type_ := "payment", Status := "refunded",
    StartTime := "2025-01-01 00:00:00", EndTime := "2025-01-31 23:59:59" }

/-- Rows 11 to 20 of the scenario in descending order: the payments of day 14 down to
day 5. -/
def scenarioPage : List Order :=
  (List.range 10).map (fun k =>
    { ID := (14 - k) * 18 % 25 + 1, Type_ := "payment", Status := "refund",
      PayerUsername := if ((14 - k) * 18 % 25) % 2 = 0 then "alice" else "carol",
      PayeeUsername := if ((14 - k) * 18 % 25) % 2 = 0 then "bob" else "alice",
      TradeTime := ((14 - k : Nat) : Int) * 86400 + 3600 })

/-- The sample store seen from `alice`, with other traffic: her four Orders in the same
order, the payment between `carol` and `bob` gone, and three Orders of other users added. -/
def sampleStoreOthers : Store :=
  { rows :=
      [⟨6, "payment", "refund", "dave", "bob", 100000⟩,
       ⟨1, "payment", "refund", "alice", "bob", 86400⟩,
       ⟨2, "payment", "refund", "carol", "alice", 172800⟩,
       ⟨7, "payment", "refund", "bob", "carol", 172800⟩,
       ⟨4, "transfer", "success", "alice", "bob", 43200⟩,
       ⟨5, "payment", "refund", "bob", "alice", 3000000⟩,
       ⟨8, "transfer", "pending", "carol", "dave", 5⟩]
    countErr := none
    findErr := none }

/-! ## The decimal type: comparison and scale -/

namespace Decimal

theorem rescale_exp (d : Decimal) (e : Int) : (d.rescale e).exp = e := by
  unfold rescale
  split_ifs with h1 h2
  · exact h1
  · rfl
  · rfl

theorem toRat_rescale_of_le (d : Decimal) (e : Int) (h : e ≤ d.exp) :
    (d.rescale e).toRat = d.toRat := by
  unfold rescale
  split_ifs with h1 h2
  · rfl
  · omega
  · have hn : ((e - d.exp).natAbs : Int) = d.exp - e := by omega
    have h10 : (10 : ℚ) ≠ 0 := by norm_num
    simp only [toRat]
    push_cast
    rw [mul_assoc, ← zpow_natCast, ← zpow_add₀ h10, hn]
    congr 2
    ring

theorem bigCmp_scaled (a b e : Int) :
    bigCmp a b =
      if (a : ℚ) * (10 : ℚ) ^ e < (b : ℚ) * (10 : ℚ) ^ e then -1
      else if (a : ℚ) * (10 : ℚ) ^ e = (b : ℚ) * (10 : ℚ) ^ e then 0 else 1 := by
  have hpos : (0 : ℚ) < (10 : ℚ) ^ e := zpow_pos (by norm_num) e
  have h1 : ((a : ℚ) * (10 : ℚ) ^ e < (b : ℚ) * (10 : ℚ) ^ e) ↔ a < b := by
    rw [mul_lt_mul_right hpos]; exact Int.cast_lt
  have h2 : ((a : ℚ) * (10 : ℚ) ^ e = (b : ℚ) * (10 : ℚ) ^ e) ↔ a = b := by
    rw [mul_left_inj' hpos.ne']; exact Int.cast_inj
  simp only [bigCmp, h1, h2]

/-- The comparison of the library is the comparison of the numbers. -/
theorem Cmp_eq (d d2 : Decimal) :
    d.Cmp d2 = if d.toRat < d2.toRat then -1 else if d.toRat = d2.toRat then 0 else 1 := by
  unfold Cmp
  by_cases he : d.exp = d2.exp
  · rw [if_pos he, bigCmp_scaled d.value d2.value d.exp]
    simp only [toRat, he]
  · rw [if_neg he]
    unfold RescalePair
    by_cases h1 : d.exp < d2.exp
    · have hr := toRat_rescale_of_le d2 d.exp (le_of_lt h1)
      have hx := rescale_exp d2 d.exp
      rw [if_pos h1, bigCmp_scaled _ _ d.exp]
      simp only [toRat] at hr ⊢
      rw [hx] at hr
      rw [hr]
    · have h2 : d.exp > d2.exp := by omega
      have hr := toRat_rescale_of_le d d2.exp (le_of_lt h2)
      have hx := rescale_exp d d2.exp
      rw [if_neg h1, if_pos h2, bigCmp_scaled _ _ d2.exp]
      simp only [toRat] at hr ⊢
      rw [hx] at hr
      rw [hr]

theorem LessThan_iff (d d2 : Decimal) : d.LessThan d2 = true ↔ d.toRat < d2.toRat := by
  unfold LessThan
  rw [Cmp_eq]
  split_ifs with h1 h2
  · simp [h1]
  · simp [h1]
  · simp [h1]

theorem GreaterThan_iff (d d2 : Decimal) : d.GreaterThan d2 = true ↔ d2.toRat < d.toRat := by
  unfold GreaterThan
  rw [Cmp_eq]
  split_ifs with h1 h2
  · simp [le_of_lt h1]
  · simp [h2]
  · simp
    exact lt_of_le_of_ne (not_lt.mp h1) (Ne.symm h2)

theorem LessThanOrEqual_iff (d d2 : Decimal) :
    d.LessThanOrEqual d2 = true ↔ d.toRat ≤ d2.toRat := by
  unfold LessThanOrEqual
  simp only [Cmp_eq]
  split_ifs with h1 h2
  · simp [le_of_lt h1]
  · simp [h2]
  · simp
    exact lt_of_le_of_ne (not_lt.mp h1) (Ne.symm h2)

theorem toRat_Zero : Zero.toRat = 0 := by simp [toRat, Zero]

theorem toRat_NewFromInt (v : Int) : (NewFromInt v).toRat = v := by simp [toRat, NewFromInt]

/-- Fitting `n` digits is divisibility of the coefficient, on integers. -/
theorem fitsPlaces_iff_dvd (d : Decimal) (n : Nat) :
    d.fitsPlaces n ↔ (10 : Int) ^ (-d.exp).toNat ∣ d.value * 10 ^ (d.exp.toNat + n) := by
  have h10 : (10 : ℚ) ≠ 0 := by norm_num
  have hz : ((10 : Int) ^ (-d.exp).toNat) ≠ 0 := pow_ne_zero _ (by norm_num)
  rw [← Rat.den_div_intCast_eq_one_iff _ _ hz]
  unfold fitsPlaces toRat
  have he : d.exp = (d.exp.toNat : Int) - ((-d.exp).toNat : Int) := by omega
  have key : (d.value : ℚ) * (10 : ℚ) ^ d.exp * (10 : ℚ) ^ n =
      ((d.value * 10 ^ (d.exp.toNat + n) : Int) : ℚ) / ((10 ^ (-d.exp).toNat : Int) : ℚ) := by
    push_cast
    rw [eq_div_iff (pow_ne_zero _ h10)]
    conv_lhs => rw [he]
    rw [zpow_sub₀ h10, zpow_natCast, zpow_natCast, pow_add]
    field_simp
    ring
  rw [key]

theorem fitsPlaces_of_exp (d : Decimal) (n : Nat) (h : -(n : Int) ≤ d.exp) :
    d.fitsPlaces n := by
  rw [fitsPlaces_iff_dvd]
  have hle : (-d.exp).toNat ≤ d.exp.toNat + n := by omega
  exact Dvd.dvd.mul_left (pow_dvd_pow _ hle) _

theorem fitsPlaces_mono (d : Decimal) {n m : Nat} (hnm : n ≤ m) (h : d.fitsPlaces n) :
    d.fitsPlaces m := by
  rw [fitsPlaces_iff_dvd] at h ⊢
  obtain ⟨k, rfl⟩ := Nat.exists_eq_add_of_le hnm
  rw [← add_assoc, pow_add, ← mul_assoc]
  exact Dvd.dvd.mul_right h _

theorem scaleFrom_spec (d : Decimal) (k : Nat) (h : d.fitsPlaces k) :
    d.fitsPlaces (d.scaleFrom k) ∧ ∀ n, n < d.scaleFrom k → ¬ d.fitsPlaces n := by
  induction k with
  | zero => exact ⟨h, fun n hn => absurd hn (Nat.not_lt_zero n)⟩
  | succ k ih =>
    unfold scaleFrom
    by_cases hk : d.fitsPlaces k
    · rw [if_pos hk]; exact ih hk
    · rw [if_neg hk]
      exact ⟨h, fun n hn hfit => hk (fitsPlaces_mono d (Nat.lt_succ_iff.mp hn) hfit)⟩

/-- The scale is the minimal number of fractional digits: the value fits `d.scale` digits and
no fewer. -/
theorem scale_spec (d : Decimal) :
    d.fitsPlaces d.scale ∧ ∀ n, n < d.scale → ¬ d.fitsPlaces n :=
  scaleFrom_spec d _ (fitsPlaces_of_exp d _ (by omega))

theorem scale_le_iff (d : Decimal) (n : Nat) : d.scale ≤ n ↔ d.fitsPlaces n := by
  constructor
  · exact fun h => fitsPlaces_mono d h (scale_spec d).1
  · intro h
    by_contra hlt
    exact (scale_spec d).2 n (not_le.mp hlt) h

/-- The scale depends on the value only, not on the representation. -/
theorem scale_congr (d d2 : Decimal) (h : d.toRat = d2.toRat) : d.scale = d2.scale := by
  have hf : ∀ n, d.fitsPlaces n ↔ d2.fitsPlaces n := fun n => by
    unfold fitsPlaces; rw [h]
  apply le_antisymm
  · exact (scale_le_iff d _).mpr ((hf _).mpr (scale_spec d2).1)
  · exact (scale_le_iff d2 _).mpr ((hf _).mp (scale_spec d).1)

theorem scale_le_of_exp (d : Decimal) (n : Nat) (h : -(n : Int) ≤ d.exp) : d.scale ≤ n :=
  (scale_le_iff d n).mpr (fitsPlaces_of_exp d n h)

end Decimal

/-! ## The validators -/

/-- What `ValidateRates` returns on one rate, by the number the rate stands for and the
exponent of its representation. -/
theorem ValidateRates_single (r : Decimal) :
    ValidateRates [r] =
      if r.toRat < 0 ∨ 1 < r.toRat then some .RateMustBeBetweenZeroAndOne
      else if r.Exponent < -2 then some .RateDecimalPlacesExceeded
      else none := by
  have h0 := Decimal.LessThan_iff r Decimal.Zero
  have h1 := Decimal.GreaterThan_iff r (Decimal.NewFromInt 1)
  rw [Decimal.toRat_Zero] at h0
  rw [Decimal.toRat_NewFromInt] at h1
  simp only [ValidateRates, Bool.or_eq_true, h0, h1, Int.cast_one]

/-- One step of the loop of `ValidateRates`: the head decides, unless it passes. -/
theorem ValidateRates_cons (r : Decimal) (rs : List Decimal) :
    ValidateRates (r :: rs) =
      match ValidateRates [r] with
      | some e => some e
      | none => ValidateRates rs := by
  simp only [ValidateRates]
  split_ifs <;> rfl

/-- What `ValidateAmount` returns, by the number the amount stands for and the exponent of
its representation. -/
theorem ValidateAmount_eq (amount : Decimal) :
    ValidateAmount amount =
      if amount.toRat ≤ 0 then some .AmountMustBeGreaterThanZero
      else if amount.Exponent < -2 then some .AmountDecimalPlacesExceeded
      else none := by
  have h0 := Decimal.LessThanOrEqual_iff amount Decimal.Zero
  rw [Decimal.toRat_Zero] at h0
  simp only [ValidateAmount, h0]

/-- A scale above two forces an exponent below `-2`, whatever the representation. -/
theorem Decimal.exponent_lt_of_scale (d : Decimal) (h : 2 < d.scale) : d.Exponent < -2 := by
  by_contra hge
  have := Decimal.scale_le_of_exp d 2 (by simp only [Decimal.Exponent] at hge; omega)
  omega

/-- C1, as the code has it: a rate with `0 ≤ r ≤ 1` whose representation has at most two
digits after the decimal point (`r.Exponent() ≥ -2`) passes `ValidateRates`. -/
theorem ValidateRates_ok_of_exponent (r : Decimal) (h0 : 0 ≤ r.toRat) (h1 : r.toRat ≤ 1)
    (he : -2 ≤ r.Exponent) : ValidateRates [r] = none := by
  rw [ValidateRates_single, if_neg (by rintro (h | h) <;> linarith), if_neg (by omega)]

/-- C1, witness: the rate `0.50`, coefficient `50` and exponent `-2`. -/
theorem ValidateRates_ok_of_exponent_witness :
    (0 : ℚ) ≤ (⟨50, -2⟩ : Decimal).toRat ∧ (⟨50, -2⟩ : Decimal).toRat ≤ 1 ∧
      (-2 : Int) ≤ (⟨50, -2⟩ : Decimal).Exponent ∧ ValidateRates [⟨50, -2⟩] = none :=
  ⟨by norm_num [Decimal.toRat], by norm_num [Decimal.toRat], by decide,
    ValidateRates_ok_of_exponent ⟨50, -2⟩ (by norm_num [Decimal.toRat])
      (by norm_num [Decimal.toRat]) (by decide)⟩

/-- C1, counterexample: the rate `0.500` (coefficient `500`, exponent `-3`) is the number
`1/2`, lies in `[0, 1]` and has scale `1`, yet `ValidateRates` rejects it with
`RateDecimalPlacesExceeded`. -/
theorem ValidateRates_scale_counterexample :
    (⟨500, -3⟩ : Decimal).toRat = 1 / 2 ∧
      (0 : ℚ) ≤ (⟨500, -3⟩ : Decimal).toRat ∧ (⟨500, -3⟩ : Decimal).toRat ≤ 1 ∧
      (⟨500, -3⟩ : Decimal).scale = 1 ∧ (⟨500, -3⟩ : Decimal).scale ≤ 2 ∧
      ValidateRates [⟨500, -3⟩] = some .RateDecimalPlacesExceeded := by
  have hs : (⟨500, -3⟩ : Decimal).scale = 1 := by
    simp [Decimal.scale, Decimal.scaleFrom, Decimal.fitsPlaces_iff_dvd]
    decide
  refine ⟨by norm_num [Decimal.toRat], by norm_num [Decimal.toRat],
    by norm_num [Decimal.toRat], hs, by omega, by decide⟩

/-- C2, as the code has it: an amount `> 0` whose representation has at most two digits
after the decimal point (`amount.Exponent() ≥ -2`) passes `ValidateAmount`. -/
theorem ValidateAmount_ok_of_exponent (amount : Decimal) (h0 : 0 < amount.toRat)
    (he : -2 ≤ amount.Exponent) : ValidateAmount amount = none := by
  rw [ValidateAmount_eq, if_neg (by linarith), if_neg (by omega)]

/-- C2, witness: the amount `10.00`, coefficient `1000` and exponent `-2`. -/
theorem ValidateAmount_ok_of_exponent_witness :
    (0 : ℚ) < (⟨1000, -2⟩ : Decimal).toRat ∧ (-2 : Int) ≤ (⟨1000, -2⟩ : Decimal).Exponent ∧
      ValidateAmount ⟨1000, -2⟩ = none :=
  ⟨by norm_num [Decimal.toRat], by decide,
    ValidateAmount_ok_of_exponent ⟨1000, -2⟩ (by norm_num [Decimal.toRat]) (by decide)⟩

/-- C2, counterexample: the amount `10.000` (coefficient `10000`, exponent `-3`) is the
number `10`, is positive and has scale `0`, yet `ValidateAmount` rejects it with
`AmountDecimalPlacesExceeded`. -/
theorem ValidateAmount_scale_counterexample :
    (⟨10000, -3⟩ : Decimal).toRat = 10 ∧ (0 : ℚ) < (⟨10000, -3⟩ : Decimal).toRat ∧
      (⟨10000, -3⟩ : Decimal).scale = 0 ∧ (⟨10000, -3⟩ : Decimal).scale ≤ 2 ∧
      ValidateAmount ⟨10000, -3⟩ = some .AmountDecimalPlacesExceeded := by
  have hs : (⟨10000, -3⟩ : Decimal).scale = 0 := by
    simp [Decimal.scale, Decimal.scaleFrom, Decimal.fitsPlaces_iff_dvd]
    decide
  refine ⟨by norm_num [Decimal.toRat], by norm_num [Decimal.toRat], hs, by omega, by decide⟩

/-- C4: a rate `r < 0` or `r > 1` fails `ValidateRates` with the out-of-range error,
whatever the exponent of its representation: the range is checked first. -/
theorem ValidateRates_out_of_range (r : Decimal) (h : r.toRat < 0 ∨ 1 < r.toRat) :
    ValidateRates [r] = some .RateMustBeBetweenZeroAndOne := by
  rw [ValidateRates_single, if_pos h]

/-- C4, witness: the rates `1.005` and `-0.001`, both with three digits after the point. -/
theorem ValidateRates_out_of_range_witness :
    (1 : ℚ) < (⟨1005, -3⟩ : Decimal).toRat ∧ (⟨-1, -3⟩ : Decimal).toRat < 0 ∧
      ValidateRates [⟨1005, -3⟩] = some .RateMustBeBetweenZeroAndOne ∧
      ValidateRates [⟨-1, -3⟩] = some .RateMustBeBetweenZeroAndOne :=
  ⟨by norm_num [Decimal.toRat], by norm_num [Decimal.toRat],
    ValidateRates_out_of_range ⟨1005, -3⟩ (Or.inr (by norm_num [Decimal.toRat])),
    ValidateRates_out_of_range ⟨-1, -3⟩ (Or.inl (by norm_num [Decimal.toRat]))⟩

/-- C5: a rate with `0 ≤ r ≤ 1` whose scale (the minimal number of digits after the decimal
point) exceeds two fails `ValidateRates` with `RateDecimalPlacesExceeded`. -/
theorem ValidateRates_places_exceeded (r : Decimal) (h0 : 0 ≤ r.toRat) (h1 : r.toRat ≤ 1)
    (hs : 2 < r.scale) : ValidateRates [r] = some .RateDecimalPlacesExceeded := by
  rw [ValidateRates_single, if_neg (by rintro (h | h) <;> linarith),
    if_pos (Decimal.exponent_lt_of_scale r hs)]

/-- C5, witness: the rate `0.333`, of scale three. -/
theorem ValidateRates_places_exceeded_witness :
    (0 : ℚ) ≤ (⟨333, -3⟩ : Decimal).toRat ∧ (⟨333, -3⟩ : Decimal).toRat ≤ 1 ∧
      2 < (⟨333, -3⟩ : Decimal).scale ∧
      ValidateRates [⟨333, -3⟩] = some .RateDecimalPlacesExceeded := by
  have hs : 2 < (⟨333, -3⟩ : Decimal).scale := by
    simp [Decimal.scale, Decimal.scaleFrom, Decimal.fitsPlaces_iff_dvd]
    decide
  exact ⟨by norm_num [Decimal.toRat], by norm_num [Decimal.toRat], hs,
    ValidateRates_places_exceeded ⟨333, -3⟩ (by norm_num [Decimal.toRat])
      (by norm_num [Decimal.toRat]) hs⟩

/-- Rates that all pass in front of a list do not change what `ValidateRates` returns. -/
theorem ValidateRates_append_of_pass (p rest : List Decimal)
    (hp : ∀ x ∈ p, ValidateRates [x] = none) :
    ValidateRates (p ++ rest) = ValidateRates rest := by
  induction p with
  | nil => rfl
  | cons x xs ih =>
    rw [List.cons_append, ValidateRates_cons, hp x (List.mem_cons_self x xs)]
    exact ih (fun y hy => hp y (List.mem_cons_of_mem x hy))

/-- C6: `ValidateRates` stops at the first violation: after rates `p` that all pass, a rate
`v` that fails a check decides the result, whatever rates `s` follow. -/
theorem ValidateRates_short_circuit (p : List Decimal) (v : Decimal) (s : List Decimal)
    (hp : ∀ x ∈ p, ValidateRates [x] = none) (hv : ValidateRates [v] ≠ none) :
    ValidateRates (p ++ [v] ++ s) = ValidateRates [v] := by
  rw [List.append_assoc, ValidateRates_append_of_pass p _ hp, List.singleton_append,
    ValidateRates_cons]
  cases hx : ValidateRates [v] with
  | none => exact absurd hx hv
  | some e => rfl

/-- C6, witness: after `0.5` and `1`, the rate `0.333` decides; the out-of-range `2` and
`-1` that follow are not looked at. -/
theorem ValidateRates_short_circuit_witness :
    (∀ x ∈ ([⟨5, -1⟩, ⟨1, 0⟩] : List Decimal), ValidateRates [x] = none) ∧
      ValidateRates [⟨333, -3⟩] ≠ none ∧
      ValidateRates (([⟨5, -1⟩, ⟨1, 0⟩] : List Decimal) ++ [⟨333, -3⟩] ++ [⟨2, 0⟩, ⟨-1, 0⟩]) =
        ValidateRates [⟨333, -3⟩] ∧
      ValidateRates [⟨333, -3⟩] = some .RateDecimalPlacesExceeded :=
  ⟨by decide, by decide,
    ValidateRates_short_circuit [⟨5, -1⟩, ⟨1, 0⟩] ⟨333, -3⟩ [⟨2, 0⟩, ⟨-1, 0⟩] (by decide)
      (by decide),
    by decide⟩

/-- C7: `ValidateRates` returns no error on a sequence of rates exactly when it returns no
error on each rate of the sequence; on no rates at all it returns no error. -/
theorem ValidateRates_eq_none_iff (rates : List Decimal) :
    (ValidateRates rates = none ↔ ∀ r ∈ rates, ValidateRates [r] = none) ∧
      ValidateRates [] = none := by
  refine ⟨?_, rfl⟩
  induction rates with
  | nil => simp [ValidateRates]
  | cons x xs ih =>
    rw [ValidateRates_cons, List.forall_mem_cons, ← ih]
    cases hx : ValidateRates [x] with
    | none => simp
    | some e => simp

/-- C8: an amount `≤ 0` fails `ValidateAmount` with `AmountMustBeGreaterThanZero`, whatever
the exponent of its representation: the sign is checked first. -/
theorem ValidateAmount_not_positive (amount : Decimal) (h : amount.toRat ≤ 0) :
    ValidateAmount amount = some .AmountMustBeGreaterThanZero := by
  rw [ValidateAmount_eq, if_pos h]

/-- C8, witness: the amounts `0`, `-5` and `-0.005`. -/
theorem ValidateAmount_not_positive_witness :
    (Decimal.NewFromInt 0).toRat ≤ 0 ∧ (Decimal.NewFromInt (-5)).toRat ≤ 0 ∧
      (⟨-5, -3⟩ : Decimal).toRat ≤ 0 ∧
      ValidateAmount (Decimal.NewFromInt 0) = some .AmountMustBeGreaterThanZero ∧
      ValidateAmount (Decimal.NewFromInt (-5)) = some .AmountMustBeGreaterThanZero ∧
      ValidateAmount ⟨-5, -3⟩ = some .AmountMustBeGreaterThanZero :=
  ⟨by norm_num [Decimal.toRat, Decimal.NewFromInt],
    by norm_num [Decimal.toRat, Decimal.NewFromInt], by norm_num [Decimal.toRat],
    ValidateAmount_not_positive _ (by norm_num [Decimal.toRat, Decimal.NewFromInt]),
    ValidateAmount_not_positive _ (by norm_num [Decimal.toRat, Decimal.NewFromInt]),
    ValidateAmount_not_positive _ (by norm_num [Decimal.toRat])⟩

/-- C9: an amount `> 0` whose scale (the minimal number of digits after the decimal point)
exceeds two fails `ValidateAmount` with `AmountDecimalPlacesExceeded`. -/
theorem ValidateAmount_places_exceeded (amount : Decimal) (h0 : 0 < amount.toRat)
    (hs : 2 < amount.scale) : ValidateAmount amount = some .AmountDecimalPlacesExceeded := by
  rw [ValidateAmount_eq, if_neg (by linarith), if_pos (Decimal.exponent_lt_of_scale amount hs)]

/-- C9, witness: the amount `10.005`, of scale three. -/
theorem ValidateAmount_places_exceeded_witness :
    (0 : ℚ) < (⟨10005, -3⟩ : Decimal).toRat ∧ 2 < (⟨10005, -3⟩ : Decimal).scale ∧
      ValidateAmount ⟨10005, -3⟩ = some .AmountDecimalPlacesExceeded := by
  have hs : 2 < (⟨10005, -3⟩ : Decimal).scale := by
    simp [Decimal.scale, Decimal.scaleFrom, Decimal.fitsPlaces_iff_dvd]
    decide
  exact ⟨by norm_num [Decimal.toRat], hs,
    ValidateAmount_places_exceeded ⟨10005, -3⟩ (by norm_num [Decimal.toRat]) hs⟩

/-! ## The transaction listing -/

theorem insertDesc_perm (o : Order) (l : List Order) : (insertDesc o l).Perm (o :: l) := by
  induction l with
  | nil => exact List.Perm.refl _
  | cons x xs ih =>
    unfold insertDesc
    split_ifs
    · exact List.Perm.refl _
    · exact ((List.Perm.cons x ih).trans (List.Perm.swap o x xs))

/-- Sorting rearranges the rows: none is added, lost or repeated. -/
theorem orderByTradeTimeDesc_perm (l : List Order) : (orderByTradeTimeDesc l).Perm l := by
  induction l with
  | nil => exact List.Perm.refl _
  | cons x xs ih =>
    unfold orderByTradeTimeDesc
    exact (insertDesc_perm x _).trans (List.Perm.cons x ih)

theorem Query.holds_of_matches {q : Query} {c : Cond} {o : Order} (hc : c ∈ q.conds)
    (h : q.matches o = true) : c.holds o = true := by
  unfold Query.matches at h
  exact List.all_eq_true.mp h c hc

theorem Query.mem_conds_Where {q : Query} {c : Cond} (c2 : Cond) (hc : c ∈ q.conds) :
    c ∈ (q.Where c2).conds := by
  unfold Query.Where
  exact List.mem_append_left _ hc

/-- Every row a fetch returns is a row of the store that satisfies the query. -/
theorem Store.mem_of_Find {s : Store} {q : Query} {offset limit : Int} {data : List Order}
    (h : s.Find q offset limit = .ok data) {o : Order} (ho : o ∈ data) :
    o ∈ s.rows ∧ q.matches o = true := by
  unfold Store.Find at h
  cases hf : s.findErr with
  | some e => rw [hf] at h; cases h
  | none =>
    rw [hf] at h
    simp only [Except.ok.injEq] at h
    subst h
    have hsorted : o ∈ orderByTradeTimeDesc (s.rows.filter q.matches) := by
      split_ifs at ho with h1 h2 h2
      · exact List.mem_of_mem_drop (List.mem_of_mem_take ho)
      · exact List.mem_of_mem_take ho
      · exact List.mem_of_mem_drop ho
      · exact ho
    have := (orderByTradeTimeDesc_perm _).mem_iff.mp hsorted
    exact List.mem_filter.mp this

/-- The base condition on the caller is part of the query from the start. -/
theorem party_mem_filterQuery (username : String) (req : TransactionListRequest) :
    Cond.party username ∈ (filterQuery username req).conds := by
  have h0 : Cond.party username ∈ (Query.Model.Where (.party username)).conds := by
    simp [Query.Where, Query.Model]
  unfold filterQuery
  simp only
  by_cases ht : req.Type_ ≠ "" <;> by_cases hs : req.Status ≠ ""
  · rw [if_pos hs, if_pos ht]
    exact Query.mem_conds_Where _ (Query.mem_conds_Where _ h0)
  · rw [if_neg hs, if_pos ht]
    exact Query.mem_conds_Where _ h0
  · rw [if_pos hs, if_neg ht]
    exact Query.mem_conds_Where _ h0
  · rw [if_neg hs, if_neg ht]
    exact h0

/-- A successful call: the caller is logged in, and the body holds the count and the page of
one query that contains the base condition on the caller, at the normalized pagination. -/
theorem Transactions_OK {parseTime : String → Option Int} {user : Option String}
    {store : Store} {req : TransactionListRequest} {body : TransactionListResponse}
    (h : (Transactions parseTime user store req).response = .OK body) :
    ∃ username query, user = some username ∧ Cond.party username ∈ query.conds ∧
      store.Count query = .ok body.Total ∧
      store.Find query
        (wrapInt (((applyDefaults req).Page - 1) * (applyDefaults req).PageSize))
        (applyDefaults req).PageSize = .ok body.Data ∧
      body.Page = (applyDefaults req).Page ∧ body.Size = (applyDefaults req).PageSize := by
  unfold Transactions at h
  split at h
  · cases h
  · split at h
    · cases h
    · rename_i username
      simp only at h
      split at h
      · cases h
      · rename_i query1 hq1
        split at h
        · cases h
        · rename_i query2 hq2
          split at h
          · cases h
          · rename_i total htotal
            split at h
            · cases h
            · rename_i orders horders
              simp only [Response.OK.injEq] at h
              subst h
              refine ⟨username, query2, rfl, ?_, htotal, horders, rfl, rfl⟩
              have hm1 : Cond.party username ∈ query1.conds := by
                split_ifs at hq1 with hs
                · cases hp : parseTime (applyDefaults req).StartTime with
                  | none => rw [hp] at hq1; cases hq1
                  | some t =>
                    rw [hp] at hq1
                    simp only [Option.map_some', Option.some.injEq] at hq1
                    subst hq1
                    exact Query.mem_conds_Where _ (party_mem_filterQuery _ _)
                · simp only [Option.some.injEq] at hq1
                  subst hq1
                  exact party_mem_filterQuery _ _
              split_ifs at hq2 with hs
              · cases hp : parseTime (applyDefaults req).EndTime with
                | none => rw [hp] at hq2; cases hq2
                | some t =>
                  rw [hp] at hq2
                  simp only [Option.map_some', Option.some.injEq] at hq2
                  subst hq2
                  exact Query.mem_conds_Where _ hm1
              · simp only [Option.some.injEq] at hq2
                subst hq2
                exact hm1

/-- The binding tags stop a page size above `100` (and likewise a negative page) before the
defaults run: the handler answers `400` and reads nothing. -/
theorem Transactions_rejects_large_page_size (parseTime : String → Option Int)
    (user : Option String) (store : Store) (req : TransactionListRequest)
    (hp : 0 ≤ req.Page) (h : 100 < req.PageSize) :
    Transactions parseTime user store req = ⟨.BadRequest "PageSize", []⟩ := by
  have h1 : ¬ (req.Page ≠ 0 ∧ req.Page < 1) := by omega
  have h2 : req.PageSize ≠ 0 ∧ (req.PageSize < 1 ∨ 100 < req.PageSize) := by omega
  have hb : ShouldBindJSON req = some "PageSize" := by
    unfold ShouldBindJSON
    rw [if_neg h1, if_pos h2]
  unfold Transactions
  rw [hb]

/-- C3: whatever the store, the filters and the pagination, every Order in the data of a
listing returned to the identity `U` has `U` as payer or as payee. -/
theorem Transactions_only_own_orders (parseTime : String → Option Int) (U : String)
    (store : Store) (req : TransactionListRequest) (body : TransactionListResponse)
    (h : (Transactions parseTime (some U) store req).response = .OK body) :
    ∀ o ∈ body.Data, o.PayerUsername = U ∨ o.PayeeUsername = U := by
  intro o ho
  obtain ⟨username, query, hu, hparty, -, hfind, -, -⟩ := Transactions_OK h
  simp only [Option.some.injEq] at hu
  subst hu
  have hm := (Store.mem_of_Find hfind ho).2
  have := Query.holds_of_matches hparty hm
  simpa [Cond.holds] using this

/-- C3, witness: on the sample store `alice` gets her two refunded payments of January,
most recent first, and not the one between `carol` and `bob`. -/
theorem Transactions_only_own_orders_witness :
    (Transactions sampleParseTime (some "alice") sampleStore sampleRequest).response =
        .OK { Total := 2, Page := 1, Size := 20,
              Data := [⟨2, "payment", "refund", "carol", "alice", 172800⟩,
                       ⟨1, "payment", "refund", "alice", "bob", 86400⟩] } ∧
      ∀ o ∈ ([⟨2, "payment", "refund", "carol", "alice", 172800⟩,
              ⟨1, "payment", "refund", "alice", "bob", 86400⟩] : List Order),
        o.PayerUsername = "alice" ∨ o.PayeeUsername = "alice" :=
  ⟨by decide,
    Transactions_only_own_orders sampleParseTime "alice" sampleStore sampleRequest
      { Total := 2, Page := 1, Size := 20,
        Data := [⟨2, "payment", "refund", "carol", "alice", 172800⟩,
                 ⟨1, "payment", "refund", "alice", "bob", 86400⟩] } (by decide)⟩

/-- The three `if` statements, one case at a time. -/
theorem applyDefaults_cases (req : TransactionListRequest) :
    applyDefaults req =
      { req with Page := specPage req.Page, PageSize := specPageSize req.PageSize } := by
  unfold applyDefaults specPage specPageSize
  by_cases hp : req.Page ≤ 0 <;> by_cases h0 : req.PageSize ≤ 0 <;>
    by_cases h100 : req.PageSize > 100 <;> simp [hp, h0, h100]

/-- C10: the defaults of `Transactions` are the reference normalization, for every raw page
and page size: the page becomes `1` if `≤ 0`, the page size `20` if `≤ 0` and `100` if
`> 100`, and nothing else changes; so page `0` gives `1`, page size `0` gives `20` and page
size `500` gives `100`. -/
theorem applyDefaults_eq_spec (req : TransactionListRequest) :
    applyDefaults req =
        { req with Page := specPage req.Page, PageSize := specPageSize req.PageSize } ∧
      (applyDefaults { req with Page := 0 }).Page = 1 ∧
      (applyDefaults { req with PageSize := 0 }).PageSize = 20 ∧
      (applyDefaults { req with PageSize := 500 }).PageSize = 100 := by
  refine ⟨applyDefaults_cases req, ?_, ?_, ?_⟩ <;> rw [applyDefaults_cases] <;>
    simp [specPage, specPageSize]

/-! ## The listing: query, order and page -/

theorem insertDesc_sorted (o : Order) (l : List Order)
    (h : l.Pairwise (fun a b => b.TradeTime ≤ a.TradeTime)) :
    (insertDesc o l).Pairwise (fun a b => b.TradeTime ≤ a.TradeTime) := by
  induction l with
  | nil => simp [insertDesc]
  | cons x xs ih =>
    unfold insertDesc
    rw [List.pairwise_cons] at h
    by_cases hx : x.TradeTime ≤ o.TradeTime
    · rw [if_pos hx]
      refine List.pairwise_cons.mpr ⟨?_, List.pairwise_cons.mpr h⟩
      intro y hy
      rcases List.mem_cons.mp hy with rfl | hy
      · exact hx
      · exact le_trans (h.1 y hy) hx
    · rw [if_neg hx]
      refine List.pairwise_cons.mpr ⟨?_, ih h.2⟩
      intro y hy
      rcases List.mem_cons.mp ((insertDesc_perm o xs).mem_iff.mp hy) with rfl | hy
      · exact le_of_lt (not_le.mp hx)
      · exact h.1 y hy

/-- Sorting puts the rows in non-increasing order of `trade_time`. -/
theorem orderByTradeTimeDesc_sorted (l : List Order) :
    (orderByTradeTimeDesc l).Pairwise (fun a b => b.TradeTime ≤ a.TradeTime) := by
  induction l with
  | nil => exact List.Pairwise.nil
  | cons x xs ih =>
    unfold orderByTradeTimeDesc
    exact insertDesc_sorted x _ ih

theorem Query.matches_Where (q : Query) (c : Cond) (o : Order) :
    (q.Where c).matches o = (q.matches o && c.holds o) := by
  simp [Query.matches, Query.Where, List.all_append]

theorem beq_string_eq_decide (a b : String) : (a == b) = decide (a = b) := by
  by_cases h : a = b <;> simp [h]

theorem Query.matches_Model (o : Order) : Query.Model.matches o = true := rfl

/-- The status the code filters on is the specification's mapping of the token. -/
theorem status_eq_specStatus (s : String) :
    (if s = "refunded" then "refund" else s) = specStatus s := by
  unfold specStatus specStatusTable
  by_cases h : s = "refunded"
  · subst h; rfl
  · rw [if_neg h]
    have hb : (s == "refunded") = false := by simpa using h
    simp [List.lookup, hb]

/-- The conditions on caller, type and status are the first three parts of the
specification's predicate. -/
theorem filterQuery_matches (U : String) (req : TransactionListRequest) (o : Order) :
    (filterQuery U req).matches o =
      (decide (o.PayerUsername = U ∨ o.PayeeUsername = U) &&
        decide (req.Type_ = "" ∨ o.Type_ = req.Type_) &&
        decide (req.Status = "" ∨ o.Status = specStatus req.Status)) := by
  unfold filterQuery
  simp only [← status_eq_specStatus]
  by_cases ht : req.Type_ = "" <;> by_cases hs : req.Status = "" <;>
    simp [ht, hs, Query.matches_Where, Query.matches_Model, Cond.holds,
      beq_string_eq_decide]

/-- The query of a call is the specification's composed predicate. -/
theorem listingQuery_matches (U : String) (req : TransactionListRequest)
    (startTime endTime : Option Int) (o : Order) :
    (listingQuery U req startTime endTime).matches o =
      specMatches U req.Type_ req.Status startTime endTime o := by
  unfold listingQuery specMatches
  cases startTime <;> cases endTime <;>
    simp [Query.matches_Where, filterQuery_matches, Cond.holds]

theorem Store.Count_ok (s : Store) (q : Query) (h : s.countErr = none) :
    s.Count q = .ok ((s.rows.filter q.matches).length : Int) := by
  unfold Store.Count
  rw [h]

theorem Store.Find_ok (s : Store) (q : Query) (offset limit : Int) (h : s.findErr = none)
    (hl : 0 ≤ limit) :
    s.Find q offset limit =
      .ok (((orderByTradeTimeDesc (s.rows.filter q.matches)).drop offset.toNat).take
        limit.toNat) := by
  unfold Store.Find
  rw [h]
  simp only
  rw [if_pos hl]
  by_cases ho : 0 < offset
  · rw [if_pos ho]
  · rw [if_neg ho]
    have h0 : offset.toNat = 0 := by omega
    rw [h0, List.drop_zero]

theorem filterQuery_applyDefaults (U : String) (req : TransactionListRequest) :
    filterQuery U (applyDefaults req) = filterQuery U req := by
  rw [applyDefaults_cases]
  rfl

theorem specPageSize_bounds (pageSize : Int) :
    1 ≤ specPageSize pageSize ∧ specPageSize pageSize ≤ 100 := by
  unfold specPageSize
  split_ifs <;> omega

theorem specPage_pos (page : Int) : 1 ≤ specPage page := by
  unfold specPage
  split_ifs <;> omega

/-- A call that passes the binding, comes from a logged-in caller, has time bounds that parse
and reads a store that answers: it succeeds after one count and one fetch, with the count of
the rows satisfying the query and the page of them at the offset and the normalized size. -/
theorem Transactions_success (parseTime : String → Option Int) (U : String) (store : Store)
    (req : TransactionListRequest) (hb : ShouldBindJSON req = none)
    (hs : req.StartTime ≠ "" → parseTime req.StartTime ≠ none)
    (he : req.EndTime ≠ "" → parseTime req.EndTime ≠ none)
    (hc : store.countErr = none) (hf : store.findErr = none) :
    Transactions parseTime (some U) store req =
      ⟨.OK
        { Total :=
            ((store.rows.filter
              (listingQuery U req (timeBound parseTime req.StartTime)
                (timeBound parseTime req.EndTime)).matches).length : Int)
          Page := specPage req.Page
          Size := specPageSize req.PageSize
          Data :=
            ((orderByTradeTimeDesc
              (store.rows.filter
                (listingQuery U req (timeBound parseTime req.StartTime)
                  (timeBound parseTime req.EndTime)).matches)).drop
              (listingOffset req).toNat).take (specPageSize req.PageSize).toNat },
        [.count, .find]⟩ := by
  have hS : (applyDefaults req).StartTime = req.StartTime := by rw [applyDefaults_cases]
  have hE : (applyDefaults req).EndTime = req.EndTime := by rw [applyDefaults_cases]
  have hP : (applyDefaults req).Page = specPage req.Page := by rw [applyDefaults_cases]
  have hPS : (applyDefaults req).PageSize = specPageSize req.PageSize := by
    rw [applyDefaults_cases]
  have hl : 0 ≤ specPageSize req.PageSize := by
    have := (specPageSize_bounds req.PageSize).1
    omega
  unfold Transactions
  rw [hb]
  simp only [hS, hE, hP, hPS, filterQuery_applyDefaults]
  have hq1 : (if req.StartTime ≠ "" then
        (parseTime req.StartTime).map
          (fun startTime => (filterQuery U req).Where (.tradeTimeGe startTime))
      else some (filterQuery U req)) =
      some (listingQuery U req (timeBound parseTime req.StartTime) none) := by
    unfold listingQuery timeBound
    by_cases h1 : req.StartTime ≠ ""
    · obtain ⟨t, ht⟩ := Option.ne_none_iff_exists'.mp (hs h1)
      simp [h1, ht]
    · simp [h1]
  rw [hq1]
  simp only
  have hq2 : (if req.EndTime ≠ "" then
        (parseTime req.EndTime).map
          (fun endTime =>
            (listingQuery U req (timeBound parseTime req.StartTime) none).Where
              (.tradeTimeLe endTime))
      else some (listingQuery U req (timeBound parseTime req.StartTime) none)) =
      some (listingQuery U req (timeBound parseTime req.StartTime)
        (timeBound parseTime req.EndTime)) := by
    unfold listingQuery timeBound
    by_cases h1 : req.EndTime ≠ ""
    · obtain ⟨t, ht⟩ := Option.ne_none_iff_exists'.mp (he h1)
      simp [h1, ht]
    · simp [h1]
  rw [hq2]
  simp only
  rw [Store.Count_ok _ _ hc]
  simp only
  rw [Store.Find_ok _ _ _ _ hf hl]
  simp only [listingOffset, hP, hPS]

/-- A call that fails the binding, has no logged-in caller or carries a time bound that does
not parse is answered with a request error before any read of the store. -/
theorem Transactions_rejected (parseTime : String → Option Int) (user : Option String)
    (store : Store) (req : TransactionListRequest)
    (h : ShouldBindJSON req ≠ none ∨ user = none ∨
      (req.StartTime ≠ "" ∧ parseTime req.StartTime = none) ∨
      (req.EndTime ≠ "" ∧ parseTime req.EndTime = none)) :
    (Transactions parseTime user store req).response.isRequestError = true ∧
      (Transactions parseTime user store req).reads = [] := by
  have hS : (applyDefaults req).StartTime = req.StartTime := by rw [applyDefaults_cases]
  have hE : (applyDefaults req).EndTime = req.EndTime := by rw [applyDefaults_cases]
  unfold Transactions
  cases hb : ShouldBindJSON req with
  | some e => exact ⟨rfl, rfl⟩
  | none =>
    cases user with
    | none => exact ⟨rfl, rfl⟩
    | some U =>
      simp only [hS, hE]
      by_cases h1 : req.StartTime ≠ "" ∧ parseTime req.StartTime = none
      · simp [h1.1, h1.2, Response.isRequestError]
      · have h2 : req.EndTime ≠ "" ∧ parseTime req.EndTime = none := by
          rcases h with h | h | h | h
          · exact absurd hb h
          · cases h
          · exact absurd h h1
          · exact h
        by_cases hs : req.StartTime ≠ ""
        · cases hp : parseTime req.StartTime with
          | none => exact absurd ⟨hs, hp⟩ h1
          | some t => simp [hs, hp, h2.1, h2.2, Response.isRequestError]
        · simp [hs, h2.1, h2.2, Response.isRequestError]

/-- A call that is answered `200`: it passed the binding, both time bounds parse where
present, and the store answered both reads. -/
theorem Transactions_OK_inv {parseTime : String → Option Int} {user : Option String}
    {store : Store} {req : TransactionListRequest} {body : TransactionListResponse}
    (h : (Transactions parseTime user store req).response = .OK body) :
    ShouldBindJSON req = none ∧ (req.StartTime ≠ "" → parseTime req.StartTime ≠ none) ∧
      (req.EndTime ≠ "" → parseTime req.EndTime ≠ none) ∧
      store.countErr = none ∧ store.findErr = none := by
  have hrej := Transactions_rejected parseTime user store req
  rw [h] at hrej
  have hno : ¬ (ShouldBindJSON req ≠ none ∨ user = none ∨
      (req.StartTime ≠ "" ∧ parseTime req.StartTime = none) ∨
      (req.EndTime ≠ "" ∧ parseTime req.EndTime = none)) := by
    intro hbad
    have := (hrej hbad).1
    simp [Response.isRequestError] at this
  simp only [not_or, not_and, ne_eq, not_not] at hno
  obtain ⟨username, query, -, -, hcount, hfind, -, -⟩ := Transactions_OK h
  refine ⟨hno.1, hno.2.2.1, hno.2.2.2, ?_, ?_⟩
  · unfold Store.Count at hcount
    cases hc : store.countErr with
    | none => rfl
    | some e => rw [hc] at hcount; cases hcount
  · unfold Store.Find at hfind
    cases hf : store.findErr with
    | none => rfl
    | some e => rw [hf] at hfind; cases hfind

/-! ## Pagination -/

theorem wrapInt_of_range (x : Int) (h0 : 0 ≤ x) (h1 : x < 2 ^ 63) : wrapInt x = x := by
  unfold wrapInt
  omega

/-- Where the product `(page - 1) * pageSize` of the normalized values fits a Go `int`, the
offset is that product, and it is not negative. -/
theorem listingOffset_exact (req : TransactionListRequest)
    (h : (specPage req.Page - 1) * specPageSize req.PageSize < 2 ^ 63) :
    listingOffset req = (specPage req.Page - 1) * specPageSize req.PageSize ∧
      0 ≤ listingOffset req := by
  have hp := specPage_pos req.Page
  have hs := (specPageSize_bounds req.PageSize).1
  have h0 : 0 ≤ (specPage req.Page - 1) * specPageSize req.PageSize :=
    mul_nonneg (by omega) (by omega)
  have he : listingOffset req =
      wrapInt ((specPage req.Page - 1) * specPageSize req.PageSize) := by
    unfold listingOffset
    rw [applyDefaults_cases]
  rw [he, wrapInt_of_range _ h0 h]
  exact ⟨rfl, h0⟩

/-- C11, the code at a far page: the requests for page `2 ^ 62 + 1` and for page `2 ^ 63 - 1`
at page size `100` pass the binding; the exact offsets would be `461168601842738790400` and
`922337203685477580600`, the Go product wraps to `0` and to `-200`. Page `3` at page size
`10` gives offset `20`. -/
theorem listingOffset_wraps :
    ShouldBindJSON farPageRequest = none ∧
      (specPage farPageRequest.Page - 1) * specPageSize farPageRequest.PageSize =
        461168601842738790400 ∧
      listingOffset farPageRequest = 0 ∧
      ShouldBindJSON lastPageRequest = none ∧
      (specPage lastPageRequest.Page - 1) * specPageSize lastPageRequest.PageSize =
        922337203685477580600 ∧
      listingOffset lastPageRequest = -200 ∧
      listingOffset { farPageRequest with Page := 3, PageSize := 10 } = 20 := by
  decide

/-! ## The answer of a successful call -/

theorem filter_listingQuery (parseTime : String → Option Int) (U : String) (store : Store)
    (req : TransactionListRequest) :
    store.rows.filter
        (listingQuery U req (timeBound parseTime req.StartTime)
          (timeBound parseTime req.EndTime)).matches =
      matchingRows parseTime U store req := by
  unfold matchingRows
  congr 1
  funext o
  exact listingQuery_matches U req _ _ o

/-- The body of an answer `200`: the number of matching rows, the normalized page and size,
and the page of the matching rows in descending order, from the offset of the code. -/
theorem Transactions_OK_body {parseTime : String → Option Int} {U : String} {store : Store}
    {req : TransactionListRequest} {body : TransactionListResponse}
    (h : (Transactions parseTime (some U) store req).response = .OK body) :
    body.Total = ((matchingRows parseTime U store req).length : Int) ∧
      body.Page = specPage req.Page ∧ body.Size = specPageSize req.PageSize ∧
      body.Data =
        ((orderByTradeTimeDesc (matchingRows parseTime U store req)).drop
          (listingOffset req).toNat).take (specPageSize req.PageSize).toNat := by
  obtain ⟨hb, hs, he, hc, hf⟩ := Transactions_OK_inv h
  rw [Transactions_success parseTime U store req hb hs he hc hf] at h
  simp only [Response.OK.injEq] at h
  subst h
  rw [filter_listingQuery]
  exact ⟨rfl, rfl, rfl, rfl⟩

/-- C12: for a recognized status token `s`, an Order passes the query with the status filter
`s` exactly when it passes the query without the status filter and its internal status is
`m(s)`, where `m` maps `refunded` to `refund` and every other token to itself; the filter
`refunded` matches only Orders of status `refund`, and no other recognized token matches an
Order of status `refund`. -/
theorem status_filter_iff (U : String) (req : TransactionListRequest)
    (startTime endTime : Option Int) (o : Order) (hs : req.Status ∈ statusTokens) :
    ((listingQuery U req startTime endTime).matches o = true ↔
        (listingQuery U { req with Status := "" } startTime endTime).matches o = true ∧
          o.Status = specStatus req.Status) ∧
      specStatus req.Status = (if req.Status = "refunded" then "refund" else req.Status) ∧
      (req.Status = "refunded" → (listingQuery U req startTime endTime).matches o = true →
        o.Status = "refund") ∧
      (req.Status ≠ "refunded" → o.Status = "refund" →
        (listingQuery U req startTime endTime).matches o = false) := by
  have hne : req.Status ≠ "" := by
    intro h0
    rw [h0] at hs
    revert hs
    decide
  have hiff : (listingQuery U req startTime endTime).matches o = true ↔
      (listingQuery U { req with Status := "" } startTime endTime).matches o = true ∧
        o.Status = specStatus req.Status := by
    rw [listingQuery_matches, listingQuery_matches]
    simp only [specMatches, hne, false_or, true_or, decide_True, Bool.and_true,
      Bool.and_eq_true, decide_eq_true_eq]
    tauto
  refine ⟨hiff, (status_eq_specStatus _).symm, ?_, ?_⟩
  · intro hr hm
    have := (hiff.mp hm).2
    rw [this, hr]
    rfl
  · intro hr ho
    cases hm : (listingQuery U req startTime endTime).matches o with
    | false => rfl
    | true =>
      have h2 := (hiff.mp hm).2
      rw [← status_eq_specStatus, if_neg hr, ho] at h2
      rw [← h2] at hs
      revert hs
      decide

/-- C12, witness: under the filter `refunded` the first refunded payment of the sample store
passes the query of `alice`, and its status is `refund`. -/
theorem status_filter_iff_witness :
    sampleRequest.Status ∈ statusTokens ∧
      ((listingQuery "alice" sampleRequest (some 0) (some 2678399)).matches
          ⟨1, "payment", "refund", "alice", "bob", 86400⟩ = true ↔
        (listingQuery "alice" { sampleRequest with Status := "" } (some 0)
            (some 2678399)).matches ⟨1, "payment", "refund", "alice", "bob", 86400⟩ = true ∧
          (⟨1, "payment", "refund", "alice", "bob", 86400⟩ : Order).Status =
            specStatus sampleRequest.Status) ∧
      (listingQuery "alice" sampleRequest (some 0) (some 2678399)).matches
        ⟨1, "payment", "refund", "alice", "bob", 86400⟩ = true :=
  ⟨by decide,
    (status_filter_iff "alice" sampleRequest (some 0) (some 2678399)
      ⟨1, "payment", "refund", "alice", "bob", 86400⟩ (by decide)).1,
    by decide⟩

/-- C13: the total of a listing is the number of Orders of the whole store that satisfy the
composed predicate (caller is payer or payee, and each filter that is present holds, the time
bounds inclusive); the page and the page size of the request do not change it. -/
theorem Transactions_total (parseTime : String → Option Int) (U : String) (store : Store)
    (req : TransactionListRequest) (body : TransactionListResponse)
    (h : (Transactions parseTime (some U) store req).response = .OK body) :
    body.Total =
        ((store.rows.filter
          (specMatches U req.Type_ req.Status (timeBound parseTime req.StartTime)
            (timeBound parseTime req.EndTime))).length : Int) ∧
      ∀ (page pageSize : Int) (body2 : TransactionListResponse),
        (Transactions parseTime (some U) store
          { req with Page := page, PageSize := pageSize }).response = .OK body2 →
        body2.Total = body.Total := by
  refine ⟨(Transactions_OK_body h).1, ?_⟩
  intro page pageSize body2 h2
  rw [(Transactions_OK_body h).1, (Transactions_OK_body h2).1]
  rfl

/-- C13, witness: on the sample store the refunded payments of `alice` in January 2025 are
two of the five rows, on the first page and on the third page of size one alike. -/
theorem Transactions_total_witness :
    (Transactions sampleParseTime (some "alice") sampleStore sampleRequest).response =
        .OK { Total := 2, Page := 1, Size := 20,
              Data := [⟨2, "payment", "refund", "carol", "alice", 172800⟩,
                       ⟨1, "payment", "refund", "alice", "bob", 86400⟩] } ∧
      (2 : Int) =
        ((sampleStore.rows.filter
          (specMatches "alice" "payment" "refunded" (some 0) (some 2678399))).length : Int) ∧
      (Transactions sampleParseTime (some "alice") sampleStore
          { sampleRequest with Page := 3, PageSize := 1 }).response =
        .OK { Total := 2, Page := 3, Size := 1, Data := [] } :=
  ⟨by decide,
    (Transactions_total sampleParseTime "alice" sampleStore sampleRequest
      { Total := 2, Page := 1, Size := 20,
        Data := [⟨2, "payment", "refund", "carol", "alice", 172800⟩,
                 ⟨1, "payment", "refund", "alice", "bob", 86400⟩] } (by decide)).1,
    by decide⟩

/-! ## The page -/

/-- A row of a sorted list outside one of its segments is at least as recent as every row of
the segment, or at most as recent as every one. -/
theorem segment_boundary (L : List Order)
    (hL : L.Pairwise (fun a b => b.TradeTime ≤ a.TradeTime)) (k n : Nat) (o : Order)
    (ho : o ∈ L) (hout : o ∉ (L.drop k).take n) :
    (∀ d ∈ (L.drop k).take n, d.TradeTime ≤ o.TradeTime) ∨
      (∀ d ∈ (L.drop k).take n, o.TradeTime ≤ d.TradeTime) := by
  have hsplit : L = L.take k ++ ((L.drop k).take n ++ (L.drop k).drop n) := by
    rw [List.take_append_drop, List.take_append_drop]
  rw [hsplit] at hL ho
  rw [List.pairwise_append] at hL
  obtain ⟨-, hright, hcross⟩ := hL
  rw [List.pairwise_append] at hright
  rcases List.mem_append.mp ho with hA | hDB
  · left
    intro d hd
    exact hcross o hA d (List.mem_append_left _ hd)
  · rcases List.mem_append.mp hDB with hD | hB
    · exact absurd hD hout
    · right
      intro d hd
      exact hright.2.2 d hd o hB

/-- Rows with pairwise distinct `trade_time` have one descending arrangement only: sorting
returns it. -/
theorem orderByTradeTimeDesc_unique (l ranked : List Order) (hp : ranked.Perm l)
    (hr : ranked.Pairwise (fun a b => b.TradeTime < a.TradeTime)) :
    orderByTradeTimeDesc l = ranked := by
  haveI : IsAntisymm Order (fun a b => b.TradeTime < a.TradeTime) :=
    ⟨fun a b h1 h2 => absurd h1 (not_lt.mpr (le_of_lt h2))⟩
  have hperm : (orderByTradeTimeDesc l).Perm ranked :=
    (orderByTradeTimeDesc_perm l).trans hp.symm
  have hne : ranked.Pairwise (fun a b => a.TradeTime ≠ b.TradeTime) :=
    hr.imp (fun h => (ne_of_lt h).symm)
  have hne2 : (orderByTradeTimeDesc l).Pairwise (fun a b => a.TradeTime ≠ b.TradeTime) :=
    (hperm.pairwise_iff (fun h => h.symm)).mpr hne
  have hstrict : (orderByTradeTimeDesc l).Pairwise (fun a b => b.TradeTime < a.TradeTime) :=
    ((orderByTradeTimeDesc_sorted l).and hne2).imp
      (fun h => lt_of_le_of_ne h.1 (fun he => h.2 he.symm))
  exact List.eq_of_perm_of_sorted hperm hstrict hr

/-- C14: the data of a listing is the segment of length at most the page size, from the
offset of the code, of the matching Orders in descending order of `trade_time`: it is sorted
by non-increasing `trade_time`, each of its Orders is in the store and satisfies the composed
predicate, and a matching Order outside it is at least as recent as its first Order or at
most as recent as its last.  At page 2 and page size 10, with 25 matching Orders of distinct
`trade_time`, the total is 25 and the data is rows 11 to 20 of the descending order. -/
theorem Transactions_page (parseTime : String → Option Int) (U : String) (store : Store)
    (req : TransactionListRequest) (body : TransactionListResponse)
    (h : (Transactions parseTime (some U) store req).response = .OK body) :
    body.Data =
        ((orderByTradeTimeDesc (matchingRows parseTime U store req)).drop
          (listingOffset req).toNat).take (specPageSize req.PageSize).toNat ∧
      body.Data.Pairwise (fun a b => b.TradeTime ≤ a.TradeTime) ∧
      (∀ o ∈ body.Data, o ∈ store.rows ∧
        specMatches U req.Type_ req.Status (timeBound parseTime req.StartTime)
          (timeBound parseTime req.EndTime) o = true) ∧
      (∀ first last, body.Data.head? = some first → body.Data.getLast? = some last →
        ∀ o ∈ matchingRows parseTime U store req, o ∉ body.Data →
          first.TradeTime ≤ o.TradeTime ∨ o.TradeTime ≤ last.TradeTime) ∧
      (req.Page = 2 → req.PageSize = 10 →
        ∀ ranked : List Order, ranked.Perm (matchingRows parseTime U store req) →
          ranked.Pairwise (fun a b => b.TradeTime < a.TradeTime) → ranked.length = 25 →
          body.Total = 25 ∧ body.Page = 2 ∧ body.Size = 10 ∧
            body.Data = (ranked.drop 10).take 10 ∧ body.Data.length = 10) := by
  obtain ⟨htotal, hpage, hsize, hdata⟩ := Transactions_OK_body h
  have hsorted := orderByTradeTimeDesc_sorted (matchingRows parseTime U store req)
  refine ⟨hdata, ?_, ?_, ?_, ?_⟩
  · rw [hdata]
    exact (hsorted.sublist (List.drop_sublist _ _)).sublist (List.take_sublist _ _)
  · intro o ho
    rw [hdata] at ho
    have hmem := (orderByTradeTimeDesc_perm _).mem_iff.mp
      (List.mem_of_mem_drop (List.mem_of_mem_take ho))
    exact List.mem_filter.mp hmem
  · intro first last hfirst hlast o ho hout
    have hf : first ∈ body.Data := List.mem_of_mem_head? hfirst
    have hl : last ∈ body.Data := List.mem_of_getLast?_eq_some hlast
    rw [hdata] at hout hf hl
    rcases segment_boundary _ hsorted _ _ o
      ((orderByTradeTimeDesc_perm _).mem_iff.mpr ho) hout with hge | hle
    · exact Or.inl (hge first hf)
    · exact Or.inr (hle last hl)
  · intro h2 h10 ranked hperm hstrict hlen
    have huniq := orderByTradeTimeDesc_unique _ ranked hperm hstrict
    have hoff : (listingOffset req).toNat = 10 := by
      unfold listingOffset
      rw [applyDefaults_cases]
      simp only [h2, h10]
      decide
    have hsz : specPageSize req.PageSize = 10 := by rw [h10]; decide
    have hpg : specPage req.Page = 2 := by rw [h2]; decide
    have hd : body.Data = (ranked.drop 10).take 10 := by
      rw [hdata, huniq, hoff, hsz]
      rfl
    refine ⟨?_, by rw [hpage, hpg], by rw [hsize, hsz], hd, ?_⟩
    · rw [htotal, ← hperm.length_eq, hlen]
      rfl
    · rw [hd, List.length_take, List.length_drop, hlen]
      rfl

/-- C14, witness: the specification's scenario, 25 matching Orders on 25 days and 5 unrelated
ones, answers page 2 at page size 10 with total 25 and the Orders of day 14 down to day 5,
which are in non-increasing order of `trade_time`. -/
theorem Transactions_page_witness :
    (Transactions sampleParseTime (some "alice") scenarioStore scenarioRequest).response =
        .OK { Total := 25, Page := 2, Size := 10, Data := scenarioPage } ∧
      scenarioPage.Pairwise (fun a b => b.TradeTime ≤ a.TradeTime) :=
  ⟨by decide,
    (Transactions_page sampleParseTime "alice" scenarioStore scenarioRequest
      { Total := 25, Page := 2, Size := 10, Data := scenarioPage } (by decide)).2.1⟩

/-- Within the range of a Go `int`: a page that lies beyond the matching Orders is answered
`200` with no data and the full total. -/
theorem Transactions_beyond_data (parseTime : String → Option Int) (U : String)
    (store : Store) (req : TransactionListRequest) (hb : ShouldBindJSON req = none)
    (hs : req.StartTime ≠ "" → parseTime req.StartTime ≠ none)
    (he : req.EndTime ≠ "" → parseTime req.EndTime ≠ none)
    (hc : store.countErr = none) (hf : store.findErr = none)
    (hfit : (specPage req.Page - 1) * specPageSize req.PageSize < 2 ^ 63)
    (hbeyond : ((matchingRows parseTime U store req).length : Int) ≤
      (specPage req.Page - 1) * specPageSize req.PageSize) :
    Transactions parseTime (some U) store req =
      ⟨.OK { Total := ((matchingRows parseTime U store req).length : Int)
             Page := specPage req.Page
             Size := specPageSize req.PageSize
             Data := [] },
        [.count, .find]⟩ := by
  rw [Transactions_success parseTime U store req hb hs he hc hf, filter_listingQuery]
  have hoff := (listingOffset_exact req hfit).1
  have hlen : (orderByTradeTimeDesc (matchingRows parseTime U store req)).length ≤
      (listingOffset req).toNat := by
    rw [(orderByTradeTimeDesc_perm _).length_eq, hoff]
    omega
  rw [List.drop_eq_nil_of_le hlen, List.take_nil]

/-- C15, the code at a far page: for page `2 ^ 62 + 1` at page size `100` the four Orders of
`alice` in the sample store are far fewer than `(page - 1) * pageSize`, and the answer is
`200` with these four Orders, the first page, as data. -/
theorem Transactions_far_page_data :
    ((matchingRows sampleParseTime "alice" sampleStore farPageRequest).length : Int) ≤
        (specPage farPageRequest.Page - 1) * specPageSize farPageRequest.PageSize ∧
      Transactions sampleParseTime (some "alice") sampleStore farPageRequest =
        ⟨.OK { Total := 4, Page := 4611686018427387905, Size := 100,
               Data := [⟨5, "payment", "refund", "bob", "alice", 3000000⟩,
                        ⟨2, "payment", "refund", "carol", "alice", 172800⟩,
                        ⟨1, "payment", "refund", "alice", "bob", 86400⟩,
                        ⟨4, "transfer", "success", "alice", "bob", 43200⟩] },
          [.count, .find]⟩ := by
  decide

/-- The number of Orders in the data: what is left of the matching Orders after the offset
of the code, up to the page size; never more than the page size, nor than `100`; and within
the range of a Go `int` it is `min(pageSize, max(0, total - (page - 1) * pageSize))`. -/
theorem Transactions_data_length {parseTime : String → Option Int} {U : String}
    {store : Store} {req : TransactionListRequest} {body : TransactionListResponse}
    (h : (Transactions parseTime (some U) store req).response = .OK body) :
    body.Data.length =
        min (specPageSize req.PageSize).toNat
          ((matchingRows parseTime U store req).length - (listingOffset req).toNat) ∧
      (body.Data.length : Int) ≤ body.Size ∧ body.Data.length ≤ 100 ∧
      ((specPage req.Page - 1) * specPageSize req.PageSize < 2 ^ 63 →
        (body.Data.length : Int) =
          min (specPageSize req.PageSize)
            (max 0 (body.Total - (specPage req.Page - 1) * specPageSize req.PageSize))) := by
  obtain ⟨htotal, -, hsize, hdata⟩ := Transactions_OK_body h
  have hb := specPageSize_bounds req.PageSize
  have hlen : body.Data.length =
      min (specPageSize req.PageSize).toNat
        ((matchingRows parseTime U store req).length - (listingOffset req).toNat) := by
    rw [hdata, List.length_take, List.length_drop, (orderByTradeTimeDesc_perm _).length_eq]
  refine ⟨hlen, ?_, ?_, ?_⟩
  · rw [hlen, hsize]
    omega
  · rw [hlen]
    omega
  · intro hfit
    have hoff := listingOffset_exact req hfit
    rw [hlen, htotal, ← hoff.1]
    omega

/-- C19, the code at a far page: for page `2 ^ 62 + 1` at page size `100` on the sample store
the answer carries total 4 and four Orders as data, where
`min(pageSize, max(0, total - (page - 1) * pageSize))` is `0`. -/
theorem Transactions_far_page_length :
    ∃ body, (Transactions sampleParseTime (some "alice") sampleStore farPageRequest).response =
        .OK body ∧ body.Total = 4 ∧ body.Data.length = 4 ∧
      min (specPageSize farPageRequest.PageSize)
        (max 0 (body.Total -
          (specPage farPageRequest.Page - 1) * specPageSize farPageRequest.PageSize)) = 0 :=
  ⟨{ Total := 4, Page := 4611686018427387905, Size := 100,
     Data := [⟨5, "payment", "refund", "bob", "alice", 3000000⟩,
              ⟨2, "payment", "refund", "carol", "alice", 172800⟩,
              ⟨1, "payment", "refund", "alice", "bob", 86400⟩,
              ⟨4, "transfer", "success", "alice", "bob", 43200⟩] },
    by decide, rfl, rfl, by decide⟩

/-- C16: a call whose non-empty `startTime` or non-empty `endTime` does not parse, or whose
caller is not logged in, is answered with a request error (`400` or `401`, never `200`) and
reads nothing from the store, neither the count nor the page. -/
theorem Transactions_request_error (parseTime : String → Option Int) (user : Option String)
    (store : Store) (req : TransactionListRequest)
    (h : (req.StartTime ≠ "" ∧ parseTime req.StartTime = none) ∨
      (req.EndTime ≠ "" ∧ parseTime req.EndTime = none) ∨ user = none) :
    (Transactions parseTime user store req).response.isRequestError = true ∧
      (Transactions parseTime user store req).reads = [] := by
  apply Transactions_rejected
  rcases h with h | h | h
  · exact Or.inr (Or.inr (Or.inl h))
  · exact Or.inr (Or.inr (Or.inr h))
  · exact Or.inr (Or.inl h)

/-- C16, witness: with a valid `startTime` and the `endTime` `01/01/2025` the call of `alice`
is answered `400` and reads nothing. -/
theorem Transactions_request_error_witness :
    ((sampleRequest.StartTime ≠ "" ∧ sampleParseTime sampleRequest.StartTime ≠ none) ∧
        ("01/01/2025" ≠ "" ∧ sampleParseTime "01/01/2025" = none)) ∧
      Transactions sampleParseTime (some "alice") sampleStore
          { sampleRequest with EndTime := "01/01/2025" } =
        ⟨.BadRequest "结束时间格式错误，格式应为：YYYY-MM-DD HH:mm:ss", []⟩ ∧
      (Transactions sampleParseTime (some "alice") sampleStore
          { sampleRequest with EndTime := "01/01/2025" }).response.isRequestError = true ∧
      (Transactions sampleParseTime (some "alice") sampleStore
          { sampleRequest with EndTime := "01/01/2025" }).reads = [] :=
  ⟨by decide, by decide,
    Transactions_request_error sampleParseTime (some "alice") sampleStore
      { sampleRequest with EndTime := "01/01/2025" } (Or.inr (Or.inl (by decide)))⟩

/-- C17: in every answer `200` the fields `page` and `size` are the normalized page and page
size, the ones the fetch ran with (limit `size`, offset the Go product `(page - 1) * size`),
not the raw ones; so `page ≥ 1` and `1 ≤ size ≤ 100`. -/
theorem Transactions_echo (parseTime : String → Option Int) (user : Option String)
    (store : Store) (req : TransactionListRequest) (body : TransactionListResponse)
    (h : (Transactions parseTime user store req).response = .OK body) :
    body.Page = specPage req.Page ∧ body.Size = specPageSize req.PageSize ∧
      body.Page = (applyDefaults req).Page ∧ body.Size = (applyDefaults req).PageSize ∧
      (∃ query, store.Find query (wrapInt ((body.Page - 1) * body.Size)) body.Size =
        .ok body.Data) ∧
      1 ≤ body.Page ∧ 1 ≤ body.Size ∧ body.Size ≤ 100 := by
  obtain ⟨username, query, -, -, -, hfind, hpage, hsize⟩ := Transactions_OK h
  have hP : (applyDefaults req).Page = specPage req.Page := by rw [applyDefaults_cases]
  have hS : (applyDefaults req).PageSize = specPageSize req.PageSize := by
    rw [applyDefaults_cases]
  have hb := specPageSize_bounds req.PageSize
  have hp := specPage_pos req.Page
  refine ⟨hpage.trans hP, hsize.trans hS, hpage, hsize, ⟨query, ?_⟩, ?_, ?_, ?_⟩
  · rw [hpage, hsize]
    exact hfind
  · rw [hpage, hP]; exact hp
  · rw [hsize, hS]; exact hb.1
  · rw [hsize, hS]; exact hb.2

/-- C17, witness: the sample request carries page `0` and page size `0`; the answer carries
page `1` and size `20`. -/
theorem Transactions_echo_witness :
    (Transactions sampleParseTime (some "alice") sampleStore sampleRequest).response =
        .OK { Total := 2, Page := 1, Size := 20,
              Data := [⟨2, "payment", "refund", "carol", "alice", 172800⟩,
                       ⟨1, "payment", "refund", "alice", "bob", 86400⟩] } ∧
      (1 : Int) = specPage sampleRequest.Page ∧
      (20 : Int) = specPageSize sampleRequest.PageSize :=
  ⟨by decide,
    (Transactions_echo sampleParseTime (some "alice") sampleStore sampleRequest
      { Total := 2, Page := 1, Size := 20,
        Data := [⟨2, "payment", "refund", "carol", "alice", 172800⟩,
                 ⟨1, "payment", "refund", "alice", "bob", 86400⟩] } (by decide)).1,
    (Transactions_echo sampleParseTime (some "alice") sampleStore sampleRequest
      { Total := 2, Page := 1, Size := 20,
        Data := [⟨2, "payment", "refund", "carol", "alice", 172800⟩,
                 ⟨1, "payment", "refund", "alice", "bob", 86400⟩] } (by decide)).2.1⟩

/-- C20: the defaults give a page `≥ 1` and a page size between `1` and `100`, applying them
twice is applying them once, and a request with page `≥ 1` and page size between `1` and
`100` is left as it is. -/
theorem applyDefaults_idempotent (req : TransactionListRequest) :
    1 ≤ (applyDefaults req).Page ∧ 1 ≤ (applyDefaults req).PageSize ∧
      (applyDefaults req).PageSize ≤ 100 ∧
      applyDefaults (applyDefaults req) = applyDefaults req ∧
      (1 ≤ req.Page → 1 ≤ req.PageSize → req.PageSize ≤ 100 → applyDefaults req = req) := by
  have hb := specPageSize_bounds req.PageSize
  have hp := specPage_pos req.Page
  have hfix : ∀ r : TransactionListRequest, 1 ≤ r.Page → 1 ≤ r.PageSize → r.PageSize ≤ 100 →
      applyDefaults r = r := by
    intro r h1 h2 h3
    rw [applyDefaults_cases]
    have e1 : specPage r.Page = r.Page := by unfold specPage; rw [if_neg (by omega)]
    have e2 : specPageSize r.PageSize = r.PageSize := by
      unfold specPageSize; rw [if_neg (by omega), if_neg (by omega)]
    rw [e1, e2]
  have hP : (applyDefaults req).Page = specPage req.Page := by rw [applyDefaults_cases]
  have hS : (applyDefaults req).PageSize = specPageSize req.PageSize := by
    rw [applyDefaults_cases]
  refine ⟨by rw [hP]; exact hp, by rw [hS]; exact hb.1, by rw [hS]; exact hb.2, ?_, hfix req⟩
  exact hfix _ (by rw [hP]; exact hp) (by rw [hS]; exact hb.1) (by rw [hS]; exact hb.2)

/-- C20, witness: the scenario's request, page `2` at page size `10`, is left as it is. -/
theorem applyDefaults_idempotent_witness :
    ((1 : Int) ≤ scenarioRequest.Page ∧ (1 : Int) ≤ scenarioRequest.PageSize ∧
        scenarioRequest.PageSize ≤ 100) ∧
      applyDefaults scenarioRequest = scenarioRequest :=
  ⟨by decide,
    (applyDefaults_idempotent scenarioRequest).2.2.2.2 (by decide) (by decide) (by decide)⟩

/-! ## What the caller can learn of other parties -/

/-- A query that contains the base condition on `U` selects the same rows from two stores
that hold the same Orders of `U` in the same order. -/
theorem filter_matches_of_party (q : Query) (U : String) (hq : Cond.party U ∈ q.conds)
    (rows1 rows2 : List Order)
    (h : rows1.filter (fun o => decide (o.PayerUsername = U ∨ o.PayeeUsername = U)) =
      rows2.filter (fun o => decide (o.PayerUsername = U ∨ o.PayeeUsername = U))) :
    rows1.filter q.matches = rows2.filter q.matches := by
  have hsub : ∀ rows : List Order,
      rows.filter q.matches =
        (rows.filter (fun o => decide (o.PayerUsername = U ∨ o.PayeeUsername = U))).filter
          q.matches := by
    intro rows
    rw [List.filter_filter]
    apply List.filter_congr
    intro o _
    cases hm : q.matches o with
    | false => rfl
    | true =>
      have := Query.holds_of_matches hq hm
      simp only [Cond.holds, Bool.or_eq_true, beq_iff_eq] at this
      simp [this]
  rw [hsub rows1, hsub rows2, h]

/-- The handler reads the store through the count and the fetch of queries that contain the
base condition on the caller, and in no other way. -/
theorem Transactions_congr (parseTime : String → Option Int) (U : String)
    (store1 store2 : Store) (req : TransactionListRequest)
    (hC : ∀ q, Cond.party U ∈ q.conds → store1.Count q = store2.Count q)
    (hF : ∀ q offset limit, Cond.party U ∈ q.conds →
      store1.Find q offset limit = store2.Find q offset limit) :
    Transactions parseTime (some U) store1 req = Transactions parseTime (some U) store2 req := by
  have h0 := party_mem_filterQuery U (applyDefaults req)
  unfold Transactions
  cases hb : ShouldBindJSON req with
  | some e => rfl
  | none =>
    simp only
    by_cases hS : (applyDefaults req).StartTime ≠ ""
    · cases hp : parseTime (applyDefaults req).StartTime with
      | none => simp only [if_pos hS, hp, Option.map_none']
      | some t =>
        have h1 := Query.mem_conds_Where (.tradeTimeGe t) h0
        by_cases hE : (applyDefaults req).EndTime ≠ ""
        · cases hp2 : parseTime (applyDefaults req).EndTime with
          | none => simp only [if_pos hS, hp, if_pos hE, hp2, Option.map_none', Option.map_some']
          | some t2 =>
            have h2 := Query.mem_conds_Where (.tradeTimeLe t2) h1
            simp only [if_pos hS, hp, if_pos hE, hp2, Option.map_some', hC _ h2,
              hF _ _ _ h2]
        · simp only [if_pos hS, hp, if_neg hE, Option.map_some', hC _ h1, hF _ _ _ h1]
    · by_cases hE : (applyDefaults req).EndTime ≠ ""
      · cases hp2 : parseTime (applyDefaults req).EndTime with
        | none => simp only [if_neg hS, if_pos hE, hp2, Option.map_none']
        | some t2 =>
          have h2 := Query.mem_conds_Where (.tradeTimeLe t2) h0
          simp only [if_neg hS, if_pos hE, hp2, Option.map_some', hC _ h2, hF _ _ _ h2]
      · simp only [if_neg hS, if_neg hE, hC _ h0, hF _ _ _ h0]

/-- C18: two stores that hold the same Orders involving `U` (as payer or payee), in the same
relative order, and differ only in Orders of other parties, give `U` the same answer to every
request: the same total and the same data. -/
theorem Transactions_noninterference (parseTime : String → Option Int) (U : String)
    (req : TransactionListRequest) (rows1 rows2 : List Order)
    (countErr findErr : Option String)
    (h : rows1.filter (fun o => decide (o.PayerUsername = U ∨ o.PayeeUsername = U)) =
      rows2.filter (fun o => decide (o.PayerUsername = U ∨ o.PayeeUsername = U))) :
    Transactions parseTime (some U) ⟨rows1, countErr, findErr⟩ req =
      Transactions parseTime (some U) ⟨rows2, countErr, findErr⟩ req := by
  apply Transactions_congr
  · intro q hq
    unfold Store.Count
    simp only [filter_matches_of_party q U hq rows1 rows2 h]
  · intro q offset limit hq
    unfold Store.Find
    simp only [filter_matches_of_party q U hq rows1 rows2 h]

/-- C18, witness: `alice` gets the same answer, total 2 and her two refunded payments of
January, from the sample store and from the store with other traffic. -/
theorem Transactions_noninterference_witness :
    sampleStore.rows.filter
        (fun o => decide (o.PayerUsername = "alice" ∨ o.PayeeUsername = "alice")) =
      sampleStoreOthers.rows.filter
        (fun o => decide (o.PayerUsername = "alice" ∨ o.PayeeUsername = "alice")) ∧
      Transactions sampleParseTime (some "alice") ⟨sampleStore.rows, none, none⟩
          sampleRequest =
        Transactions sampleParseTime (some "alice") ⟨sampleStoreOthers.rows, none, none⟩
          sampleRequest ∧
      (Transactions sampleParseTime (some "alice") ⟨sampleStoreOthers.rows, none, none⟩
          sampleRequest).response =
        .OK { Total := 2, Page := 1, Size := 20,
              Data := [⟨2, "payment", "refund", "carol", "alice", 172800⟩,
                       ⟨1, "payment", "refund", "alice", "bob", 86400⟩] } :=
  ⟨by decide,
    Transactions_noninterference sampleParseTime "alice" sampleRequest sampleStore.rows
      sampleStoreOthers.rows none none (by decide),
    by decide⟩

end Credit
